import Mathlib

/-!
Shallow embedding of the lightwood time-series mixer slice:
`lightwood/mixer/gluonts.py` (GluonTSMixer), `lightwood/mixer/nhits.py`
(NHitsMixer), and
`lightwood/encoders/time_series/helpers/transformer_helpers.py`
(len_to_mask, TransformerEncoder).

Pandas data frames are modelled column-major: a `Frame` is an association
list from column names to columns, a column being a list of cell values
(`Val`).  Rows of the input data frames are modelled as records carrying
exactly the columns the wrapper code reads.  Calls into the vendor
libraries (GluonTS estimators, neuralforecast models) are parameters of
the embedding: a vendor model is a record of functions, so every theorem
about wrapper behaviour is stated for an arbitrary vendor backend.
Machine floats of the source are modelled as rationals.
-/

/-! ### Generic helpers -/

/-- Worker for `dropDuplicates`: keep elements not seen before. -/
def dropDuplicatesAux {α : Type} [DecidableEq α] (seen : List α) :
    List α → List α
  | [] => []
  | x :: xs =>
    if x ∈ seen then dropDuplicatesAux seen xs
    else x :: dropDuplicatesAux (x :: seen) xs

/-- `pd.unique` / `drop_duplicates` order: keep the first occurrence of
each element, in order of first appearance. -/
def dropDuplicates {α : Type} [DecidableEq α] (l : List α) : List α :=
  dropDuplicatesAux [] l

/-- `max` of a list of naturals (`torch.max` over a length tensor);
`0` stands for the error torch raises on an empty tensor. -/
def maxNatD (l : List Nat) : Nat :=
  l.foldl max 0

/-- `.min()` of a list of naturals; `0` on the empty list (where pandas
would raise). -/
def minNatD : List Nat → Nat
  | [] => 0
  | x :: xs => xs.foldl min x

/-- `max(...)` of a list of integers; `0` on the empty list (where Python
would raise). -/
def maxIntD : List Int → Int
  | [] => 0
  | x :: xs => xs.foldl max x

/-! ### Cell values and frames -/

/-- A pandas cell value: integer-like (indices, timestamps), numeric,
string, or an embedded array (the per-row forecast lists). -/
inductive Val : Type
  | i (n : Int)
  | q (x : ℚ)
  | s (t : String)
  | list (xs : List ℚ)
deriving DecidableEq, Repr

/-- A pandas `DataFrame`, column-major: column names in order, each with
its list of cells (all columns of a well-formed frame have equal length). -/
structure Frame : Type where
  cols : List (String × List Val)
deriving DecidableEq, Repr

/-- The column names of a frame, in order. -/
def Frame.columns (f : Frame) : List String :=
  f.cols.map Prod.fst

/-- The cells of a named column (`[]` when the column is absent). -/
def Frame.col (f : Frame) (c : String) : List Val :=
  (f.cols.lookup c).getD []

/-! ### transformer_helpers.py : len_to_mask -/

/-- `len_to_mask(lengths, zeros)` from `transformer_helpers.py`:
`mask = torch.arange(lengths.max())[None, :] < lengths[:, None]`, negated
elementwise when `zeros` is true.  The boolean matrix is a list of rows. -/
def len_to_mask (lengths : List Nat) (zeros : Bool) : List (List Bool) :=
  let m := maxNatD lengths
  let mask := lengths.map (fun l => (List.range m).map (fun j => decide (j < l)))
  if zeros then mask.map (fun row => row.map not) else mask

/-- C10: for nonempty `lengths` with maximum `M`, `len_to_mask` returns a
`len(lengths) × M` boolean matrix whose `(i, j)` entry is true exactly when
`j < lengths[i]` (for `zeros = false`), and the `zeros = true` matrix is
its elementwise negation. -/
theorem len_to_mask_spec (lengths : List Nat) (hne : lengths ≠ []) :
    (len_to_mask lengths false).length = lengths.length ∧
    (∀ row ∈ len_to_mask lengths false, row.length = maxNatD lengths) ∧
    (∀ i j, i < lengths.length → j < maxNatD lengths →
      (((len_to_mask lengths false).getD i []).getD j false = true ↔ j < lengths.getD i 0)) ∧
    len_to_mask lengths true = (len_to_mask lengths false).map (fun row => row.map not) := by
  refine ⟨?_, ?_, ?_, ?_⟩
  · simp [len_to_mask]
  · intro row hrow
    simp only [len_to_mask, if_neg Bool.false_ne_true, List.mem_map] at hrow
    obtain ⟨l, _, rfl⟩ := hrow
    simp
  · intro i j hi hj
    have hgd : lengths.getD i 0 = lengths[i] := List.getD_eq_getElem _ _ hi
    have h1 : (len_to_mask lengths false).getD i [] =
        (List.range (maxNatD lengths)).map (fun j => decide (j < lengths[i])) := by
      simp only [len_to_mask]
      rw [List.getD_eq_getElem _ _ (by simpa [len_to_mask] using hi)]
      simp
    rw [h1, hgd, List.getD_eq_getElem _ _ (by simpa using hj)]
    simp
  · simp [len_to_mask]

/-- Witness for C10 at `lengths = [2, 1, 3]`. -/
theorem len_to_mask_spec_witness :
    (len_to_mask [2, 1, 3] false).length = [2, 1, 3].length :=
  (len_to_mask_spec [2, 1, 3] (by decide)).1

/-! ### Shared mixer configuration pieces -/

/-- `lightwood.api.types.PredictionArguments` — only the fields this slice
reads. -/
structure PredictionArguments : Type where
  predict_proba : Bool := false
  fixed_confidence : Option ℚ := none
deriving DecidableEq, Repr

/-- `self.grouped_by = ['__default'] if not ts_analysis['tss'].group_by
else ts_analysis['tss'].group_by` (both mixer constructors). -/
def grouped_by_of (group_by : List String) : List String :=
  if group_by = [] then ["__default"] else group_by

/-! ### nhits.py : NHitsMixer -/

/-- A row of the `EncodedDs.data_frame` handed to `NHitsMixer`, carrying
the columns the wrapper reads: the frame index (the parsed order-by
value, copied into `__mdb_parsed_{oby}`), the `__mdb_original_{oby}`
column, the target column, and the values of the group-by columns. -/
structure NRow : Type where
  idx : Int
  oby : Int
  target : ℚ
  groupVals : List String
deriving DecidableEq, Repr

/-- `df.sort_values(by=f'__mdb_original_{oby_col}')` comparison. -/
def obyLe (a b : NRow) : Prop :=
  a.oby ≤ b.oby

instance : DecidableRel obyLe :=
  fun a b => inferInstanceAs (Decidable (a.oby ≤ b.oby))

instance : IsTotal NRow obyLe :=
  ⟨fun a b => le_total a.oby b.oby⟩

instance : IsTrans NRow obyLe :=
  ⟨fun _ _ _ h1 h2 => le_trans h1 h2⟩

/-- Constructor-time configuration of `NHitsMixer` (the fields of
`__init__` that the embedded methods read).  `group_by` is
`ts_analysis['tss'].group_by`, `sample_freq` is
`ts_analysis['sample_freqs']['__default']`, `conf_level` is the value
popped from `train_args`. -/
structure NHitsCfg : Type where
  target : String
  horizon : Nat
  window : Nat
  group_by : List String
  sample_freq : String
  conf_level : Nat := 90
deriving DecidableEq, Repr

namespace NHitsMixer

/-- A row of the long frame built by `NHitsMixer._make_initial_df`
(after the final `reset_index()`): positional `index`, target `y`,
parsed order-by `ds`, and series identifier `unique_id`. -/
structure YRow : Type where
  index : Nat
  y : ℚ
  ds : Int
  uid : String
deriving DecidableEq, Repr

/-- The rows of `_make_initial_df`: sort by `__mdb_original_{oby}`
ascending, take `y` from the target column, `ds` from the frame index
(the parsed order-by), and `unique_id` as the comma-join of the group
columns when grouping is configured, else the constant `'__default'`.
The positional `index` field records the row counter added by
`reset_index()`. -/
def make_initial_rows (cfg : NHitsCfg) (df : List NRow) : List YRow :=
  (List.insertionSort obyLe df).enum.map (fun p =>
    { index := p.1, y := p.2.target, ds := p.2.idx,
      uid := if grouped_by_of cfg.group_by ≠ ["__default"]
             then String.intercalate "," p.2.groupVals
             else "__default" })

/-- `NHitsMixer._make_initial_df` as a frame: `Y_df.reset_index()` puts
the positional `index` column first, then `y`, `ds`, `unique_id`. -/
def make_initial_df (cfg : NHitsCfg) (df : List NRow) : Frame :=
  let rows := make_initial_rows cfg df
  { cols := [("index", rows.map (fun r => Val.i (r.index : Int))),
             ("y", rows.map (fun r => Val.q r.y)),
             ("ds", rows.map (fun r => Val.i r.ds)),
             ("unique_id", rows.map (fun r => Val.s r.uid))] }

/-- The trained neuralforecast model, as the wrapper sees it at predict
time: `self.model.predict(...)` yields a frame `fcst`; `predict g c`
models `fcst[fcst['unique_id'] == g][c].tolist()`. -/
structure NModelPredict : Type where
  predict : String → String → List ℚ

/-- One forecast column of the `ydf` built by `NHitsMixer.__call__`:
every row starts as a zero array of length `self.horizon`; then for each
group (in `input_df['unique_id'].unique()` order) the row whose `index`
equals the group's last positional index (`group_ends`) receives
`fcst[fcst['unique_id'] == group][pred_col].tolist()[:self.horizon]`.
`args` is read by `__call__` only for a `predict_proba` log warning. -/
def fillTargetColumn (cfg : NHitsCfg) (model : NModelPredict) (ds : List NRow)
    (pred_col : String) : List Val :=
  let rows := make_initial_rows cfg ds
  let indexCol : List Val := rows.map (fun r => Val.i (Int.ofNat r.index))
  let uids := dropDuplicates (rows.map (fun r => r.uid))
  let group_ends := uids.map (fun g =>
    (((rows.filter (fun r => r.uid = g)).map (fun r => r.index)).getLast?).getD 0)
  (group_ends.zip uids).foldl
    (fun col p =>
      col.set ((indexCol.findIdx? (fun v => v = Val.i (Int.ofNat p.1))).getD 0)
        (Val.list ((model.predict p.2 pred_col).take cfg.horizon)))
    (List.replicate ds.length (Val.list (List.replicate cfg.horizon 0)))

/-- `NHitsMixer.__call__(ds, args)` assembled column by column (the
source builds the same `ydf` imperatively, writing the three fill
columns in one loop over the groups). -/
def call (cfg : NHitsCfg) (model : NModelPredict) (ds : List NRow)
    (args : PredictionArguments) : Frame :=
  { cols := [("prediction", fillTargetColumn cfg model ds "NHITS-median"),
             ("lower", fillTargetColumn cfg model ds
                ("NHITS-lo-" ++ toString cfg.conf_level)),
             ("upper", fillTargetColumn cfg model ds
                ("NHITS-hi-" ++ toString cfg.conf_level)),
             ("index", (make_initial_rows cfg ds).map
                (fun r => Val.i (Int.ofNat r.index))),
             ("confidence", List.replicate ds.length (Val.q (9 / 10)))] }

/-- Mutable state of an `NHitsMixer` instance (fields the embedded
methods write), over an abstract vendor model type `M`. -/
structure State (M : Type) : Type where
  model : Option M
  window : Nat
  pretrained : Bool
  prepared : Bool
  hyperparam_search : Bool
  model_name : Option String
deriving DecidableEq, Repr

/-- The neuralforecast vendor surface used by `fit`:
`load_from_checkpoint`, the loaded checkpoint's `hparams.n_time_in` /
`hparams.n_time_out`, and `NeuralForecast(models=[NHITS(h, input_size,
loss=MQLoss(level))]).fit(df=Y_df, val_size=n_ts_val)` as
`fitNF h input_size Y_df n_ts_val`. -/
structure NFVendor (M : Type) : Type where
  loadCkpt : String → M
  nTimeIn : M → Nat
  nTimeOut : M → Nat
  fitNF : Nat → Nat → List YRow → Nat → M

/-- `self.base_url`. -/
def base_url : String :=
  "https://nixtla-public.s3.amazonaws.com/transfer/pretrained_models/"

/-- `self.freq_to_model` (dict lookup; on a frequency outside the dict
the source raises `KeyError`, a lookup error modelled out of scope of
the claims by returning `"hourly"`). -/
def freq_to_model_get : String → String
  | "Y" => "yearly"
  | "Q" => "monthly"
  | "M" => "monthly"
  | "W" => "daily"
  | "D" => "daily"
  | "H" => "hourly"
  | "T" => "hourly"
  | "S" => "hourly"
  | _ => "hourly"

/-- `self.model_names.get(..., None)`. -/
def model_names_get : String → Option String
  | "hourly" => some "nhits_m4_hourly.ckpt"
  | "daily" => some "nhits_m4_daily.ckpt"
  | "monthly" => some "nhits_m4_monthly.ckpt"
  | "yearly" => some "nhits_m4_yearly.ckpt"
  | _ => none

/-- `NHitsMixer.fit(train_data, dev_data)`: concatenate the two splits,
build the long frame, compute `n_time` (min group size when grouped,
else the number of distinct order-by values) and `n_ts_val`; when
`self.pretrained`, load the checkpoint for the detected frequency and
fall back to training from scratch if the window or horizon does not fit
it; when not pretrained (any more), shrink the window if needed and fit
a fresh `NeuralForecast` model.  The pre-call `self.model` is never
read. -/
def fit {M : Type} (v : NFVendor M) (cfg : NHitsCfg) (st : State M)
    (train_data dev_data : List NRow) : State M :=
  let df := train_data ++ dev_data
  let Y_df := make_initial_rows cfg df
  let n_time :=
    if cfg.group_by ≠ [] then
      minNatD ((dropDuplicates (df.map (fun r => r.groupVals))).map
        (fun g => (df.filter (fun r => r.groupVals = g)).length))
    else (dropDuplicates (df.map (fun r => r.oby))).length
  let n_ts_val := max (n_time / 10) cfg.horizon
  let n_time_out := cfg.horizon
  let st :=
    if st.pretrained then
      let name := (model_names_get (freq_to_model_get cfg.sample_freq)).getD
        "nhits_m4_hourly.ckpt"
      let m := v.loadCkpt (base_url ++ name)
      { st with model := some m, model_name := some name,
                pretrained := decide (st.window < v.nTimeIn m) &&
                              ! decide (cfg.horizon > v.nTimeOut m) }
    else st
  if st.pretrained then st
  else
    let window :=
      if st.window + cfg.horizon > n_time then max 1 (n_time - cfg.horizon - 1)
      else st.window
    { st with window := window,
              model := some (v.fitNF n_time_out window Y_df n_ts_val) }

/-- `NHitsMixer.partial_fit(train_data, dev_data, args)`: sets
`hyperparam_search = False`, then calls `self.fit(dev_data, train_data)`
(note the swapped splits), then sets `prepared = True`. -/
def partialFit {M : Type} (v : NFVendor M) (cfg : NHitsCfg) (st : State M)
    (train_data dev_data : List NRow) : State M :=
  let st := { st with hyperparam_search := false }
  let st := fit v cfg st dev_data train_data
  { st with prepared := true }

end NHitsMixer

/-! ### Generic lemmas about the embedding's list operations -/

/-- Elements of a fold of positional writes (`df.at[idx, col] = v` loops)
are either initial cells or written values. -/
theorem mem_foldl_set {α β : Type} (f : β → α) (g : β → Nat) :
    ∀ (l : List β) (init : List α),
      ∀ v ∈ l.foldl (fun col p => col.set (g p) (f p)) init,
        v ∈ init ∨ ∃ p ∈ l, v = f p := by
  intro l
  induction l with
  | nil => intro init v hv; exact Or.inl hv
  | cons x xs ih =>
    intro init v hv
    simp only [List.foldl_cons] at hv
    rcases ih _ v hv with h | ⟨p, hp, rfl⟩
    · rcases List.mem_or_eq_of_mem_set h with h' | rfl
      · exact Or.inl h'
      · exact Or.inr ⟨x, List.mem_cons_self .., rfl⟩
    · exact Or.inr ⟨p, List.mem_cons_of_mem _ hp, rfl⟩

/-- Mapping a function of the positional counter over `enum`. -/
theorem enum_map_fst_eq {α β : Type} (l : List α) (g : Nat → β) :
    (l.enum.map (fun p => g p.1)) = (List.range l.length).map g := by
  rw [List.enum_eq_zip_range]
  have h : (fun (p : Nat × α) => g p.1) = g ∘ Prod.fst := rfl
  rw [h, ← List.map_map, List.map_fst_zip]
  simp

/-- Mapping a function of the element over `enum`. -/
theorem enum_map_snd_eq {α β : Type} (l : List α) (g : α → β) :
    (l.enum.map (fun p => g p.2)) = l.map g := by
  rw [List.enum_eq_zip_range]
  have h : (fun (p : Nat × α) => g p.2) = g ∘ Prod.snd := rfl
  rw [h, ← List.map_map, List.map_snd_zip]
  simp

/-! ### C7 : NHitsMixer._make_initial_df -/

/-- Concrete configuration for the C7 counterexample: one group column. -/
def c7cfg : NHitsCfg :=
  { target := "y0", horizon := 2, window := 2, group_by := ["g"],
    sample_freq := "D" }

/-- Concrete input frame for the C7 counterexample. -/
def c7df : List NRow :=
  [{ idx := 10, oby := 1, target := 3, groupVals := ["a"] },
   { idx := 11, oby := 0, target := 4, groupVals := ["b"] }]

/-- C7 counterexample: the frame returned by `_make_initial_df` also has
the positional `index` column added by `reset_index()`, so its columns
are not `y`, `ds`, `unique_id` alone. -/
theorem make_initial_df_extra_index_col :
    (NHitsMixer.make_initial_df c7cfg c7df).columns ≠ ["y", "ds", "unique_id"] ∧
    (NHitsMixer.make_initial_df c7cfg c7df).columns = ["index", "y", "ds", "unique_id"] := by
  decide

/-- C7 (amended): `_make_initial_df` returns a long frame with columns
`index` (the positional counter from `reset_index()`), `y`, `ds`,
`unique_id`; its rows are the input rows sorted ascending by the original
order-by column, `y` holds the target values, `ds` the parsed order-by
values (the input frame's index), and `unique_id` the comma-join of the
group columns when grouping is configured and `'__default'` otherwise. -/
theorem make_initial_df_spec (cfg : NHitsCfg) (df : List NRow) :
    (NHitsMixer.make_initial_df cfg df).columns = ["index", "y", "ds", "unique_id"] ∧
    List.Sorted obyLe (List.insertionSort obyLe df) ∧
    (NHitsMixer.make_initial_df cfg df).col "index"
      = (List.range df.length).map (fun i => Val.i (Int.ofNat i)) ∧
    (NHitsMixer.make_initial_df cfg df).col "y"
      = (List.insertionSort obyLe df).map (fun r => Val.q r.target) ∧
    (NHitsMixer.make_initial_df cfg df).col "ds"
      = (List.insertionSort obyLe df).map (fun r => Val.i r.idx) ∧
    (NHitsMixer.make_initial_df cfg df).col "unique_id"
      = (List.insertionSort obyLe df).map (fun r => Val.s
          (if grouped_by_of cfg.group_by ≠ ["__default"]
           then String.intercalate "," r.groupVals else "__default")) := by
  refine ⟨rfl, List.sorted_insertionSort obyLe df, ?_, ?_, ?_, ?_⟩
  · have h1 : (NHitsMixer.make_initial_df cfg df).col "index"
        = (NHitsMixer.make_initial_rows cfg df).map
            (fun r => Val.i (Int.ofNat r.index)) := rfl
    rw [h1, NHitsMixer.make_initial_rows, List.map_map]
    have h2 := enum_map_fst_eq (List.insertionSort obyLe df)
      (fun i => Val.i (Int.ofNat i))
    rw [List.length_insertionSort] at h2
    exact h2
  · have h1 : (NHitsMixer.make_initial_df cfg df).col "y"
        = (NHitsMixer.make_initial_rows cfg df).map (fun r => Val.q r.y) := rfl
    rw [h1, NHitsMixer.make_initial_rows, List.map_map]
    exact enum_map_snd_eq _ (fun r : NRow => Val.q r.target)
  · have h1 : (NHitsMixer.make_initial_df cfg df).col "ds"
        = (NHitsMixer.make_initial_rows cfg df).map (fun r => Val.i r.ds) := rfl
    rw [h1, NHitsMixer.make_initial_rows, List.map_map]
    exact enum_map_snd_eq _ (fun r : NRow => Val.i r.idx)
  · have h1 : (NHitsMixer.make_initial_df cfg df).col "unique_id"
        = (NHitsMixer.make_initial_rows cfg df).map (fun r => Val.s r.uid) := rfl
    rw [h1, NHitsMixer.make_initial_rows, List.map_map]
    exact enum_map_snd_eq _ (fun r : NRow =>
      Val.s (if grouped_by_of cfg.group_by ≠ ["__default"]
             then String.intercalate "," r.groupVals else "__default"))

/-! ### gluonts.py : GluonTSMixer -/

/-- A row of the `EncodedDs.data_frame` handed to `GluonTSMixer`,
carrying the columns the wrapper reads: the frame index (a timestamp),
`__mdb_original_index`, the target, the (single) group-by column's
value, and the static categorical / real feature columns.  The
`keep_cols` projection of `_make_initial_ds` keeps exactly these
columns. -/
structure GRow : Type where
  ts : Int
  origIdx : Int
  target : ℚ
  group : String
  statCat : List String
  statReal : List ℚ
deriving DecidableEq, Repr

/-- `df.sort_index()` comparison. -/
def tsLe (a b : GRow) : Prop :=
  a.ts ≤ b.ts

instance : DecidableRel tsLe :=
  fun a b => inferInstanceAs (Decidable (a.ts ≤ b.ts))

/-- Constructor-time configuration of `GluonTSMixer`.  `horizon` is the
constructor argument (used as the estimator's `prediction_length`), and
`tss_horizon` is `ts_analysis['tss'].horizon` (used by `__call__` for
the zero-filled arrays); the constructor does not require them to be
equal. -/
structure GluonCfg : Type where
  target : String
  horizon : Nat
  tss_horizon : Nat
  window : Nat
  group_by : List String
  static_features_cat : List String
  static_features_real : List String
  n_epochs : Nat := 10
  early_stop_patience : Nat := 3
deriving DecidableEq, Repr

/-- A row of the long frame `_make_initial_ds` feeds to
`PandasDataset.from_long_dataframe`: the resampled period (the frame
index, copied into `__gluon_timestamp`), the `item_id` column, and the
aggregated target and static feature columns. -/
structure LongRow : Type where
  ts : Int
  group : String
  target : ℚ
  statCat : List String
  statReal : List ℚ
deriving DecidableEq, Repr

/-- A GluonTS forecast object: `forecast.quantile(q)` is the array of
`prediction_length` predicted values at quantile `q`. -/
structure GForecast : Type where
  quantile : ℚ → List ℚ

namespace GluonTSMixer

/-- Mutable state of a `GluonTSMixer` instance over an abstract vendor
model type `M`: the trained predictor, the trainer settings mutated by
`partial_fit`, the data cache and the seen groups. -/
structure State (M : Type) : Type where
  model : Option M
  n_epochs : Nat
  patience : Nat
  train_cache : List GRow
  groups : List String
  prepared : Bool
deriving DecidableEq, Repr

/-- The GluonTS vendor surface used by the embedded methods:
`estimator.train(train_ds)` and `estimator.train_from(self.model, ds)`
(the latter resumes training from the given predictor). -/
structure GluonVendor (M : Type) : Type where
  train : List LongRow → M
  trainFrom : Option M → List LongRow → M

/-- `GluonTSMixer.__init__`: raises
`Exception("This mixer can only be used with 0 or 1 partition columns.")`
when `len(self.grouped_by) > 1`, and otherwise initialises the state.
The distribution-output resolution delegates to `importlib` /
`gluonts.mx.distribution` (vendor); the `except AttributeError` fallback
there catches a vendor exception rather than raising one. -/
def init (M : Type) (cfg : GluonCfg) : Except String (State M) :=
  if (grouped_by_of cfg.group_by).length > 1 then
    Except.error "This mixer can only be used with 0 or 1 partition columns."
  else
    Except.ok { model := none, n_epochs := cfg.n_epochs,
                patience := cfg.early_stop_patience, train_cache := [],
                groups := [], prepared := false }

/-- The aggregation map dict built by `_make_initial_ds`:
`{target: 'sum'}`, then `'first'` for each static categorical feature
and `'mean'` for each static real feature (later insertions overwrite
earlier ones, as in a Python dict). -/
inductive AggFn : Type
  | sum
  | first
  | mean
deriving DecidableEq, Repr

/-- The `agg_map` dict as an insertion-ordered association list. -/
def aggAssoc (cfg : GluonCfg) : List (String × AggFn) :=
  (cfg.target, AggFn.sum) ::
    (cfg.static_features_cat.map (fun c => (c, AggFn.first)) ++
     cfg.static_features_real.map (fun c => (c, AggFn.mean)))

/-- Python-dict lookup over an insertion-ordered association list: the
last binding of a key wins (later `agg_map[col] = ...` assignments
overwrite earlier ones). -/
def dictGet (l : List (String × AggFn)) (k : String) (dflt : AggFn) : AggFn :=
  (l.foldl (fun acc p => if p.1 = k then some p.2 else acc) none).getD dflt

/-- Applying an aggregation to a numeric column of a resample bucket. -/
def applyAggQ : AggFn → List ℚ → ℚ
  | AggFn.sum, xs => xs.sum
  | AggFn.first, xs => xs.headD 0
  | AggFn.mean, xs => xs.sum / (xs.length : ℚ)

/-- Applying an aggregation to a string column of a resample bucket
(`'sum'` concatenates as pandas does; `'mean'` on strings would raise in
pandas and is unreachable for well-formed configurations). -/
def applyAggS : AggFn → List String → String
  | AggFn.sum, xs => String.join xs
  | AggFn.first, xs => xs.headD ""
  | AggFn.mean, xs => xs.headD ""

/-- One aggregated output row of `.resample(freq).agg(agg_map)`:
period `b`, group `g`, and each kept column aggregated over the bucket
`sub` by its `agg_map` entry. -/
def aggRow (cfg : GluonCfg) (b : Int) (g : String) (sub : List GRow) : LongRow :=
  let am := aggAssoc cfg
  { ts := b, group := g,
    target := applyAggQ (dictGet am cfg.target AggFn.sum)
      (sub.map (fun r => r.target)),
    statCat := (List.range cfg.static_features_cat.length).map (fun j =>
      applyAggS (dictGet am (cfg.static_features_cat.getD j "") AggFn.first)
        (sub.map (fun r => r.statCat.getD j ""))),
    statReal := (List.range cfg.static_features_real.length).map (fun j =>
      applyAggQ (dictGet am (cfg.static_features_real.getD j "") AggFn.mean)
        (sub.map (fun r => r.statReal.getD j 0))) }

/-- The resample-and-aggregate step of `_make_initial_ds` (source lines
221–227).  `bucket` maps a timestamp to its period for the detected
default sample frequency.  With a group-by column the frame is grouped
by it and each group is resampled (`df.groupby(by=gby[0]).resample(freq)
.agg(agg_map)`); without one the whole frame is resampled and a constant
`'__default_group'` column is added.  Occupied periods are kept in first
appearance order (pandas also emits empty periods between the extremes,
which no claim here touches). -/
def resampleAgg (cfg : GluonCfg) (bucket : Int → Int) (df : List GRow) :
    List LongRow :=
  if cfg.group_by = [] then
    (dropDuplicates (df.map (fun r => bucket r.ts))).map (fun b =>
      aggRow cfg b "__default_group" (df.filter (fun r => bucket r.ts = b)))
  else
    (dropDuplicates (df.map (fun r => r.group))).flatMap (fun g =>
      let sub := df.filter (fun r => r.group = g)
      (dropDuplicates (sub.map (fun r => bucket r.ts))).map (fun b =>
        aggRow cfg b g (sub.filter (fun r => bucket r.ts = b))))

/-- `GluonTSMixer._make_initial_ds(df, phase, groups)`: resolves the
group list, maintains `self.groups` and `self.train_cache`, merges the
cache with the given frame, deduplicates, returns `None` on an empty
frame and otherwise the resampled long frame (which the source wraps
into `PandasDataset.from_long_dataframe` with `item_id` the group
column, the target, the frequency and the static features). -/
def make_initial_ds {M : Type} (cfg : GluonCfg) (bucket : Int → Int)
    (st : State M) (df0 : Option (List GRow)) (phase : String)
    (groups0 : Option (List String)) : State M × Option (List LongRow) :=
  let gby := cfg.group_by
  let groups := if groups0.isNone ∧ gby ≠ [] then some st.groups else groups0
  let st :=
    if ¬(groups0.isNone ∧ gby ≠ []) ∧ gby ≠ [] ∧ (phase = "train" ∨ phase = "adjust")
        ∧ grouped_by_of gby ≠ ["__default"] then
      { st with groups := st.groups ++ dropDuplicates (groups0.getD []) }
    else st
  let step2 : State M × Option (List GRow) :=
    match df0 with
    | none =>
      if phase ≠ "train" ∧ phase ≠ "adjust" then
        (st, some (if gby ≠ [] then
            st.train_cache.filter (fun r => (groups.getD []).contains r.group)
          else st.train_cache))
      else (st, none)
    | some df =>
      if phase = "train" then
        ({ st with train_cache := List.insertionSort tsLe df }, some df)
      else
        let cache := if gby ≠ [] then
            st.train_cache.filter (fun r => (groups.getD []).contains r.group)
          else st.train_cache
        let st := if phase = "adjust" then
            { st with train_cache :=
                List.insertionSort tsLe (dropDuplicates (st.train_cache ++ df)) }
          else st
        (st, some (List.insertionSort tsLe (cache ++ df)))
  match step2 with
  | (st, none) => (st, none)
  | (st, some df) =>
    let df := dropDuplicates df
    if df = [] then (st, none)
    else (st, some (resampleAgg cfg bucket df))

/-- `GluonTSMixer.fit(train_data, dev_data)`: concatenates the splits,
prepares the training dataset in phase `'train'`, builds the
`DeepAREstimator` (vendor, with `prediction_length = self.horizon`) and
trains it. -/
def fit {M : Type} (v : GluonVendor M) (cfg : GluonCfg) (bucket : Int → Int)
    (st : State M) (train_data dev_data : List GRow) : State M :=
  let cat_ds := train_data ++ dev_data
  let fit_groups :=
    if grouped_by_of cfg.group_by ≠ ["__default"] then
      some (dropDuplicates (cat_ds.map (fun r => r.group)))
    else none
  let p := make_initial_ds cfg bucket st (some cat_ds) "train" fit_groups
  { p.1 with model := some (v.train ((p.2).getD [])), prepared := true }

/-- The optional `args` dict of `GluonTSMixer.partial_fit`. -/
structure PFArgs : Type where
  n_epochs : Option Nat := none
  patience : Option Nat := none
deriving DecidableEq, Repr

/-- The args-handling prologue of `partial_fit`: optionally overrides
`n_epochs` / `patience` (Python truthiness: a present zero is ignored). -/
def applyPFArgs {M : Type} (a : PFArgs) (st : State M) : State M :=
  let st := match a.n_epochs with
    | some k => if k ≠ 0 then { st with n_epochs := k } else st
    | none => st
  match a.patience with
  | some k => if k ≠ 0 then { st with patience := k } else st
  | none => st

/-- `GluonTSMixer.partial_fit(train_data, dev_data, args)`: optionally
overrides `n_epochs` / `patience`, swaps in a fresh `Trainer` (vendor),
prepares the data in phase `'adjust'`, and fine-tunes the existing model
via `self.estimator.train_from(self.model, ds)`. -/
def partialFit {M : Type} (v : GluonVendor M) (cfg : GluonCfg)
    (bucket : Int → Int) (st : State M) (train_data dev_data : List GRow)
    (args : Option PFArgs) : State M :=
  let st := applyPFArgs (args.getD {}) st
  let ds := train_data ++ dev_data
  let adjust_groups :=
    if grouped_by_of cfg.group_by ≠ ["__default"] then
      some (dropDuplicates (ds.map (fun r => r.group)))
    else none
  let p := make_initial_ds cfg bucket st (some ds) "adjust" adjust_groups
  { p.1 with model := some (v.trainFrom st.model ((p.2).getD [])) }

/-- `conf = args.fixed_confidence if args.fixed_confidence else 0.9`
(Python truthiness: `None` and `0.0` both fall back to `0.9`). -/
def conf_of (args : PredictionArguments) : ℚ :=
  match args.fixed_confidence with
  | some c => if c = 0 then 9 / 10 else c
  | none => 9 / 10

/-- The row position written for a group by the `__call__` loop:
`ydf[ydf['__original_index'] == max(subdf['__mdb_original_index'])]
.index.values[0]`, with `subdf` the group's rows via
`get_group_matches`. -/
def gluonGroupRowIdx (ds : List GRow) (g : String) : Nat :=
  ((ds.map (fun r => Val.i r.origIdx)).findIdx? (fun v => v = Val.i (maxIntD
    ((ds.filter (fun r => r.group = g)).map (fun r => r.origIdx))))).getD 0

/-- One forecast column of the `ydf` built by `GluonTSMixer.__call__`:
every row starts as `init_arr`, a zero array of length
`ts_analysis['tss'].horizon`; then for each `(group, forecast)` pair of
`zip(groups, forecasts)` the group's row receives
`forecast.quantile(qv)`. -/
def fillColumn (cfg : GluonCfg) (forecasts : List GForecast) (ds : List GRow)
    (qv : ℚ) : List Val :=
  ((dropDuplicates (ds.map (fun r => r.group))).zip forecasts).foldl
    (fun col p => col.set (gluonGroupRowIdx ds p.1) (Val.list (p.2.quantile qv)))
    (List.replicate ds.length (Val.list (List.replicate cfg.tss_horizon 0)))

/-- The output frame `ydf` of `GluonTSMixer.__call__` in the grouped
case: `prediction` / `lower` / `upper` start as zero arrays of length
`ts_analysis['tss'].horizon`; `index` is the input frame's index;
`confidence` is the resolved `conf`; `__original_index` is
`df['__mdb_original_index']` (and is returned as part of `ydf`).  For
each `(group, forecast)` pair of `zip(groups, forecasts)` the row whose
`__original_index` is the group's maximal original index (via
`get_group_matches`) receives `forecast.quantile(0.5)`,
`quantile(1 - conf)` and `quantile(conf)`.  The source's loop over the
three columns is unrolled into one fill per column. -/
def forecastFrame (cfg : GluonCfg) (forecasts : List GForecast)
    (ds : List GRow) (conf : ℚ) : Frame :=
  { cols := [("prediction", fillColumn cfg forecasts ds (1 / 2)),
             ("lower", fillColumn cfg forecasts ds (1 - conf)),
             ("upper", fillColumn cfg forecasts ds conf),
             ("index", ds.map (fun r => Val.i r.ts)),
             ("confidence", List.replicate ds.length (Val.q conf)),
             ("__original_index", ds.map (fun r => Val.i r.origIdx))] }

/-- `GluonTSMixer.__call__(ds, args)`.  With no group-by column
configured, `groups` is `None` and the source evaluates
`zip(None, forecasts)`, so the call raises a `TypeError` instead of
returning a frame; with a group-by column it returns `ydf`.
`forecasts` models `list(self.model.predict(input_ds))`. -/
def call (cfg : GluonCfg) (forecasts : List GForecast) (ds : List GRow)
    (args : PredictionArguments) : Except String Frame :=
  if cfg.group_by = [] then
    Except.error "TypeError: NoneType object is not iterable"
  else
    Except.ok (forecastFrame cfg forecasts ds (conf_of args))

end GluonTSMixer

/-! ### Membership lemmas for the forecast fill columns -/

/-- Every cell of a GluonTS fill column is either the initial zero array
of length `tss_horizon` or a quantile array of one of the forecasts. -/
theorem mem_fillColumn (cfg : GluonCfg) (fc : List GForecast) (ds : List GRow)
    (qv : ℚ) (v : Val) (hv : v ∈ GluonTSMixer.fillColumn cfg fc ds qv) :
    v = Val.list (List.replicate cfg.tss_horizon 0) ∨
      ∃ gf ∈ fc, v = Val.list (gf.quantile qv) := by
  unfold GluonTSMixer.fillColumn at hv
  rcases mem_foldl_set (fun p : String × GForecast => Val.list (p.2.quantile qv))
      (fun p => GluonTSMixer.gluonGroupRowIdx ds p.1) _ _ v hv with h | ⟨p, hp, rfl⟩
  · exact Or.inl (List.eq_of_mem_replicate h)
  · obtain ⟨g, gf⟩ := p
    exact Or.inr ⟨gf, (List.of_mem_zip hp).2, rfl⟩

/-- Every cell of an N-HITS fill column is either the initial zero array
of length `horizon` or a truncated per-group forecast list. -/
theorem mem_fillTargetColumn (cfg : NHitsCfg) (model : NHitsMixer.NModelPredict)
    (ds : List NRow) (pred_col : String) (v : Val)
    (hv : v ∈ NHitsMixer.fillTargetColumn cfg model ds pred_col) :
    v = Val.list (List.replicate cfg.horizon 0) ∨
      ∃ g, v = Val.list ((model.predict g pred_col).take cfg.horizon) := by
  unfold NHitsMixer.fillTargetColumn at hv
  rcases mem_foldl_set
      (fun p : Nat × String => Val.list ((model.predict p.2 pred_col).take cfg.horizon))
      (fun p => (((NHitsMixer.make_initial_rows cfg ds).map
          (fun r => Val.i (Int.ofNat r.index))).findIdx?
          (fun w => w = Val.i (Int.ofNat p.1))).getD 0) _ _ v hv with h | ⟨p, _, rfl⟩
  · exact Or.inl (List.eq_of_mem_replicate h)
  · exact Or.inr ⟨p.2, rfl⟩

/-! ### C4 : wrapper-raised exceptions -/

/-- Configuration with two partition columns, for the C4 counterexample. -/
def c4cfg : GluonCfg :=
  { target := "t", horizon := 1, tss_horizon := 1, window := 1,
    group_by := ["g1", "g2"], static_features_cat := [],
    static_features_real := [] }

/-- C4 counterexample: the `GluonTSMixer` constructor raises an
exception of the wrapper's own design (`raise Exception("This mixer can
only be used with 0 or 1 partition columns.")`) when configured with two
partition columns, so not every escaping error is a propagated vendor
exception. -/
theorem init_raises_own_exception :
    GluonTSMixer.init Unit c4cfg =
      Except.error "This mixer can only be used with 0 or 1 partition columns." := by
  rfl

/-- C4 (amended): the one exception originated by this wrapper code is
the `GluonTSMixer` constructor's, raised exactly when more than one
partition column is configured; for any other configuration the
constructor succeeds. -/
theorem init_error_iff (M : Type) (cfg : GluonCfg) :
    (GluonTSMixer.init M cfg =
        Except.error "This mixer can only be used with 0 or 1 partition columns.")
      ↔ 1 < cfg.group_by.length := by
  unfold GluonTSMixer.init grouped_by_of
  by_cases hg : cfg.group_by = []
  · simp [hg]
  · rw [if_neg hg]
    by_cases h2 : cfg.group_by.length > 1
    · simp [h2]
    · simp [h2]

/-! ### C1 : output columns of __call__ -/

/-- Grouped GluonTS configuration for the C1 counterexample/witness. -/
def c1gcfg : GluonCfg :=
  { target := "t", horizon := 2, tss_horizon := 2, window := 1,
    group_by := ["g"], static_features_cat := [], static_features_real := [] }

/-- Input dataset for the C1 counterexample/witness. -/
def c1gds : List GRow :=
  [{ ts := 0, origIdx := 0, target := 1, group := "a", statCat := [],
     statReal := [] }]

/-- Vendor forecasts for the C1 counterexample/witness. -/
def c1gfc : List GForecast :=
  [{ quantile := fun _ => [1, 2] }]

/-- C1 counterexample: the table returned by `GluonTSMixer.__call__`
carries the helper column `__original_index` in addition to the five
columns of the claimed common schema. -/
theorem gluon_call_extra_column :
    (GluonTSMixer.call c1gcfg c1gfc c1gds {}).toOption.map Frame.columns
      = some ["prediction", "lower", "upper", "index", "confidence",
              "__original_index"] ∧
    "__original_index" ∉ ["prediction", "lower", "upper", "confidence", "index"] := by
  decide

/-- N-HITS configuration for the C1 witness. -/
def c1ncfg : NHitsCfg :=
  { target := "t", horizon := 2, window := 1, group_by := [],
    sample_freq := "D" }

/-- N-HITS vendor model for the C1 witness. -/
def c1nm : NHitsMixer.NModelPredict :=
  { predict := fun _ _ => [1, 2, 3] }

/-- N-HITS input dataset for the C1 witness. -/
def c1nds : List NRow :=
  [{ idx := 0, oby := 0, target := 1, groupVals := [] }]

/-- C1 (amended): `NHitsMixer.__call__` returns exactly the columns
`prediction, lower, upper, index, confidence`; `GluonTSMixer.__call__`,
whenever it returns a table at all, returns those five columns plus the
additional `__original_index` column. -/
theorem call_output_columns (ncfg : NHitsCfg) (nm : NHitsMixer.NModelPredict)
    (nds : List NRow) (nargs : PredictionArguments)
    (gcfg : GluonCfg) (gfc : List GForecast) (gds : List GRow)
    (gargs : PredictionArguments) (f : Frame)
    (hok : GluonTSMixer.call gcfg gfc gds gargs = Except.ok f) :
    (NHitsMixer.call ncfg nm nds nargs).columns
      = ["prediction", "lower", "upper", "index", "confidence"] ∧
    f.columns = ["prediction", "lower", "upper", "index", "confidence",
                 "__original_index"] := by
  constructor
  · rfl
  · unfold GluonTSMixer.call at hok
    split at hok
    · simp at hok
    · cases hok
      rfl

/-- Witness for C1 (amended) at concrete inputs. -/
theorem call_output_columns_witness :
    (NHitsMixer.call c1ncfg c1nm c1nds {}).columns
      = ["prediction", "lower", "upper", "index", "confidence"] ∧
    ((GluonTSMixer.call c1gcfg c1gfc c1gds {}).toOption.getD { cols := [] }).columns
      = ["prediction", "lower", "upper", "index", "confidence",
         "__original_index"] :=
  call_output_columns c1ncfg c1nm c1nds {} c1gcfg c1gfc c1gds {}
    ((GluonTSMixer.call c1gcfg c1gfc c1gds {}).toOption.getD { cols := [] }) rfl

/-! ### C6 : which rows receive forecasts -/

/-- Ungrouped GluonTS configuration (explicitly permitted by the
constructor) for the C6 failing input. -/
def c6cfg : GluonCfg :=
  { target := "t", horizon := 2, tss_horizon := 2, window := 1,
    group_by := [], static_features_cat := [], static_features_real := [] }

/-- A two-row ungrouped dataset, the C6 failing input. -/
def c6ds : List GRow :=
  [{ ts := 0, origIdx := 0, target := 1, group := "", statCat := [],
     statReal := [] },
   { ts := 1, origIdx := 1, target := 2, group := "", statCat := [],
     statReal := [] }]

/-- Vendor forecasts for the C6 failing input. -/
def c6fc : List GForecast :=
  [{ quantile := fun _ => [1, 2] }]

/-- C6 (code bug): with no group-by column configured — a configuration
the constructor explicitly permits ("0 or 1 partition columns") and that
`_make_initial_ds` handles via `'__default_group'` — `__call__` sets
`groups = None` and evaluates `zip(None, forecasts)`, raising `TypeError`
instead of returning the one-row-per-input table. -/
theorem gluon_call_ungrouped_raises :
    GluonTSMixer.call c6cfg c6fc c6ds {} =
      Except.error "TypeError: NoneType object is not iterable" := by
  rfl

/-! ### C3 : per-cell forecast array lengths -/

/-- GluonTS configuration whose constructor horizon (2) differs from the
`ts_analysis['tss'].horizon` (1) it was given, for the C3
counterexample. -/
def c3cfg : GluonCfg :=
  { target := "t", horizon := 2, tss_horizon := 1, window := 1,
    group_by := ["g"], static_features_cat := [], static_features_real := [] }

/-- Two rows of one group, for the C3 counterexample. -/
def c3ds : List GRow :=
  [{ ts := 0, origIdx := 0, target := 1, group := "a", statCat := [],
     statReal := [] },
   { ts := 1, origIdx := 1, target := 2, group := "a", statCat := [],
     statReal := [] }]

/-- A (vendor-contract-conforming) forecast of `prediction_length =
horizon = 2` values, for the C3 counterexample. -/
def c3fc : List GForecast :=
  [{ quantile := fun _ => [5, 6] }]

/-- C3 counterexample: with the mixer configured with horizon 2 (and a
`ts_analysis` horizon of 1, which nothing in the constructor ties to the
configured horizon), the zero-initialised row of the returned table
holds a list of 1 value while the forecast row holds 2, so not every
cell has exactly `horizon` values: the zero arrays are sized by
`self.ts_analysis['tss'].horizon` (line 152) while the forecasts are
sized by the estimator's `prediction_length = self.horizon` (line
102). -/
theorem gluon_call_cell_length_mismatch :
    c3cfg.horizon = 2 ∧
    ((GluonTSMixer.call c3cfg c3fc c3ds {}).toOption.getD { cols := [] }).col
        "prediction" = [Val.list [0], Val.list [5, 6]] := by
  decide

/-- C3 (amended): provided the `ts_analysis` horizon equals the
configured horizon (as in any consistent configuration) and the vendor
forecasts have the contractual `prediction_length` / output length,
every `prediction`, `lower` and `upper` cell of both mixers' output
tables is a list of exactly `horizon` values, for forecast-filled and
zero-initialised rows alike. -/
theorem forecast_cells_are_horizon_arrays
    (gcfg : GluonCfg) (gfc : List GForecast) (gds : List GRow)
    (gargs : PredictionArguments) (f : Frame)
    (ncfg : NHitsCfg) (nm : NHitsMixer.NModelPredict) (nds : List NRow)
    (nargs : PredictionArguments)
    (hts : gcfg.tss_horizon = gcfg.horizon)
    (hq : ∀ gf ∈ gfc, ∀ q, (gf.quantile q).length = gcfg.horizon)
    (hnp : ∀ g c, ncfg.horizon ≤ (nm.predict g c).length)
    (hok : GluonTSMixer.call gcfg gfc gds gargs = Except.ok f) :
    (∀ c ∈ ["prediction", "lower", "upper"], ∀ v ∈ f.col c,
       ∃ xs, v = Val.list xs ∧ xs.length = gcfg.horizon) ∧
    (∀ c ∈ ["prediction", "lower", "upper"],
       ∀ v ∈ (NHitsMixer.call ncfg nm nds nargs).col c,
       ∃ xs, v = Val.list xs ∧ xs.length = ncfg.horizon) := by
  have hg : ∀ qv : ℚ, ∀ v ∈ GluonTSMixer.fillColumn gcfg gfc gds qv,
      ∃ xs, v = Val.list xs ∧ xs.length = gcfg.horizon := by
    intro qv v hv
    rcases mem_fillColumn gcfg gfc gds qv v hv with h | ⟨gf, hgf, rfl⟩
    · exact ⟨_, h, by simp [hts]⟩
    · exact ⟨_, rfl, hq gf hgf qv⟩
  have hn : ∀ pc : String, ∀ v ∈ NHitsMixer.fillTargetColumn ncfg nm nds pc,
      ∃ xs, v = Val.list xs ∧ xs.length = ncfg.horizon := by
    intro pc v hv
    rcases mem_fillTargetColumn ncfg nm nds pc v hv with h | ⟨g, rfl⟩
    · exact ⟨_, h, by simp⟩
    · exact ⟨_, rfl, by
        rw [List.length_take]
        exact Nat.min_eq_left (hnp g pc)⟩
  constructor
  · unfold GluonTSMixer.call at hok
    split at hok
    · simp at hok
    · cases hok
      intro c hc v hv
      have hcases : c = "prediction" ∨ c = "lower" ∨ c = "upper" := by
        simpa using hc
      rcases hcases with rfl | rfl | rfl
      · exact hg _ v hv
      · exact hg _ v hv
      · exact hg _ v hv
  · intro c hc v hv
    have hcases : c = "prediction" ∨ c = "lower" ∨ c = "upper" := by
      simpa using hc
    rcases hcases with rfl | rfl | rfl
    · exact hn _ v hv
    · exact hn _ v hv
    · exact hn _ v hv

/-- Witness for C3 (amended) at concrete inputs. -/
theorem forecast_cells_are_horizon_arrays_witness :
    (∀ c ∈ ["prediction", "lower", "upper"],
       ∀ v ∈ ((GluonTSMixer.call c1gcfg c1gfc c1gds {}).toOption.getD
           { cols := [] }).col c,
       ∃ xs, v = Val.list xs ∧ xs.length = c1gcfg.horizon) ∧
    (∀ c ∈ ["prediction", "lower", "upper"],
       ∀ v ∈ (NHitsMixer.call c1ncfg c1nm c1nds {}).col c,
       ∃ xs, v = Val.list xs ∧ xs.length = c1ncfg.horizon) := by
  refine forecast_cells_are_horizon_arrays c1gcfg c1gfc c1gds {}
    ((GluonTSMixer.call c1gcfg c1gfc c1gds {}).toOption.getD { cols := [] })
    c1ncfg c1nm c1nds {} rfl ?_ ?_ rfl
  · intro gf hgf q
    have h : gf = { quantile := fun _ => [1, 2] } := by
      simpa [c1gfc] using hgf
    subst h
    rfl
  · intro g c
    show (2 : Nat) ≤ ([1, 2, 3] : List ℚ).length
    decide

/-! ### C9 : confidence column semantics -/

/-- C9: `NHitsMixer.__call__` writes the constant `0.9` into the
`confidence` column of every row and its whole output is independent of
`args` (the source only reads `args.predict_proba` for a log warning),
while `GluonTSMixer.__call__` uses `args.fixed_confidence` when it is
set (to a truthy, i.e. non-zero, value). -/
theorem confidence_args_independence
    (ncfg : NHitsCfg) (nm : NHitsMixer.NModelPredict) (nds : List NRow)
    (a1 a2 : PredictionArguments)
    (gcfg : GluonCfg) (gfc : List GForecast) (gds : List GRow)
    (c : ℚ) (f : Frame) (hc : c ≠ 0)
    (hok : GluonTSMixer.call gcfg gfc gds
        { fixed_confidence := some c } = Except.ok f) :
    (NHitsMixer.call ncfg nm nds a1).col "confidence"
      = List.replicate nds.length (Val.q (9 / 10)) ∧
    NHitsMixer.call ncfg nm nds a1 = NHitsMixer.call ncfg nm nds a2 ∧
    f.col "confidence" = List.replicate gds.length (Val.q c) := by
  refine ⟨rfl, rfl, ?_⟩
  unfold GluonTSMixer.call at hok
  split at hok
  · simp at hok
  · cases hok
    have hconf : GluonTSMixer.conf_of { fixed_confidence := some c } = c := by
      simp [GluonTSMixer.conf_of, hc]
    have hcol : ∀ cf : ℚ,
        (GluonTSMixer.forecastFrame gcfg gfc gds cf).col "confidence"
          = List.replicate gds.length (Val.q cf) := fun cf => rfl
    rw [hcol, hconf]

/-- GluonTS configuration for the C9 witness. -/
def c9gcfg : GluonCfg :=
  { target := "t", horizon := 1, tss_horizon := 1, window := 1,
    group_by := ["g"], static_features_cat := [], static_features_real := [] }

/-- Input dataset for the C9 witness. -/
def c9gds : List GRow :=
  [{ ts := 0, origIdx := 0, target := 1, group := "a", statCat := [],
     statReal := [] }]

/-- Vendor forecasts for the C9 witness. -/
def c9gfc : List GForecast :=
  [{ quantile := fun _ => [7] }]

/-- N-HITS configuration for the C9 witness. -/
def c9ncfg : NHitsCfg :=
  { target := "t", horizon := 1, window := 1, group_by := [],
    sample_freq := "D" }

/-- N-HITS vendor model for the C9 witness. -/
def c9nm : NHitsMixer.NModelPredict :=
  { predict := fun _ _ => [3] }

/-- N-HITS input dataset for the C9 witness. -/
def c9nds : List NRow :=
  [{ idx := 0, oby := 0, target := 1, groupVals := [] }]

/-- Witness for C9 at concrete inputs, with `fixed_confidence = 0.8`. -/
theorem confidence_args_independence_witness :
    (NHitsMixer.call c9ncfg c9nm c9nds {}).col "confidence"
      = List.replicate c9nds.length (Val.q (9 / 10)) ∧
    NHitsMixer.call c9ncfg c9nm c9nds {}
      = NHitsMixer.call c9ncfg c9nm c9nds { predict_proba := true } ∧
    ((GluonTSMixer.call c9gcfg c9gfc c9gds
        { fixed_confidence := some (4 / 5) }).toOption.getD
          { cols := [] }).col "confidence"
      = List.replicate c9gds.length (Val.q (4 / 5)) :=
  confidence_args_independence c9ncfg c9nm c9nds {} { predict_proba := true }
    c9gcfg c9gfc c9gds (4 / 5)
    ((GluonTSMixer.call c9gcfg c9gfc c9gds
        { fixed_confidence := some (4 / 5) }).toOption.getD { cols := [] })
    (by norm_num) (by rfl)

/-! ### C2 : partial_fit semantics -/

/-- `applyPFArgs` never touches the trained model. -/
theorem applyPFArgs_model {M : Type} (a : GluonTSMixer.PFArgs)
    (st : GluonTSMixer.State M) :
    (GluonTSMixer.applyPFArgs a st).model = st.model := by
  unfold GluonTSMixer.applyPFArgs
  rcases a with ⟨ne, pa⟩
  rcases ne with _ | k <;> rcases pa with _ | k2 <;> dsimp only <;>
    repeat' first
      | rfl
      | split

/-- C2 (amended): `GluonTSMixer.partial_fit` is an incremental update —
the post-call model is `estimator.train_from` applied to the pre-call
model and the prepared dataset; `NHitsMixer.partial_fit` instead re-runs
`fit` (on the swapped splits), and its entire result is independent of
the pre-call model, i.e. the previous trained model is discarded and a
new one is trained. -/
theorem partial_fit_semantics {M N : Type} (v : GluonTSMixer.GluonVendor M)
    (cfg : GluonCfg) (bucket : Int → Int) (st : GluonTSMixer.State M)
    (train_data dev_data : List GRow) (args : Option GluonTSMixer.PFArgs)
    (nv : NHitsMixer.NFVendor N) (ncfg : NHitsCfg)
    (nst : NHitsMixer.State N) (m : Option N) (ntrain ndev : List NRow) :
    (∃ d, (GluonTSMixer.partialFit v cfg bucket st train_data dev_data
        args).model = some (v.trainFrom st.model d)) ∧
    NHitsMixer.partialFit nv ncfg { nst with model := m } ntrain ndev
      = NHitsMixer.partialFit nv ncfg nst ntrain ndev := by
  constructor
  · unfold GluonTSMixer.partialFit
    dsimp only
    rw [applyPFArgs_model]
    exact ⟨_, rfl⟩
  · unfold NHitsMixer.partialFit NHitsMixer.fit
    dsimp only
    by_cases hp : nst.pretrained
    · simp [hp]
    · simp [hp]

/-- Concrete N-HITS vendor over `String` models for the C2
counterexample: training from scratch always yields
`"model-from-scratch"`. -/
def c2vendor : NHitsMixer.NFVendor String :=
  { loadCkpt := fun _ => "checkpoint",
    nTimeIn := fun _ => 10,
    nTimeOut := fun _ => 10,
    fitNF := fun _ _ _ _ => "model-from-scratch" }

/-- N-HITS configuration for the C2 counterexample. -/
def c2cfg : NHitsCfg :=
  { target := "t", horizon := 1, window := 1, group_by := [],
    sample_freq := "D" }

/-- A trained state holding model `"model-A"`. -/
def c2st1 : NHitsMixer.State String :=
  { model := some "model-A", window := 1, pretrained := false,
    prepared := true, hyperparam_search := false, model_name := none }

/-- A trained state holding a different model, `"model-B"`. -/
def c2st2 : NHitsMixer.State String :=
  { c2st1 with model := some "model-B" }

/-- Data for the C2 counterexample. -/
def c2data : List NRow :=
  [{ idx := 0, oby := 0, target := 1, groupVals := [] },
   { idx := 1, oby := 1, target := 2, groupVals := [] },
   { idx := 2, oby := 2, target := 3, groupVals := [] }]

/-- C2 counterexample: after `NHitsMixer.partial_fit`, two already
trained mixers holding different models end up with the identical,
freshly trained model — the post-call model is the vendor's
from-scratch fit, not a continuation of the pre-call model. -/
theorem nhits_partial_fit_discards_model :
    (NHitsMixer.partialFit c2vendor c2cfg c2st1 c2data c2data).model
      = some "model-from-scratch" ∧
    (NHitsMixer.partialFit c2vendor c2cfg c2st2 c2data c2data).model
      = some "model-from-scratch" ∧
    c2st1.model = some "model-A" ∧ c2st2.model = some "model-B" := by
  decide

/-! ### C5 : the mixer interface surface -/

/-- The mixer contract named by the spec. -/
def mixerContract : List String :=
  ["fit", "partial_fit", "__call__"]

/-- The methods defined by `class GluonTSMixer(BaseMixer)`. -/
def gluonTSMixerMethods : List String :=
  ["__init__", "fit", "partial_fit", "__call__", "_make_initial_ds"]

/-- The methods defined by `class NHitsMixer(BaseMixer)`. -/
def nhitsMixerMethods : List String :=
  ["__init__", "fit", "partial_fit", "__call__", "_make_initial_df"]

/-- The methods defined by `class TransformerEncoder(nn.Module)` in
`transformer_helpers.py`. -/
def transformerEncoderMethods : List String :=
  ["__init__", "_generate_square_subsequent_mask", "init_weights",
   "forward", "encode"]

/-- C5 counterexample: the Transformer backend's class defines neither
`fit` nor `partial_fit`, so it does not provide the mixer contract. -/
theorem transformer_encoder_lacks_mixer_contract :
    "fit" ∈ mixerContract ∧
    "fit" ∉ transformerEncoderMethods ∧
    "partial_fit" ∉ transformerEncoderMethods := by
  decide

/-- C5 (amended): the two mixer classes (`GluonTSMixer`, `NHitsMixer`)
each provide every operation of the mixer contract, while the
Transformer backend is an `nn.Module` encoder helper (`forward` /
`encode`) that does not. -/
theorem mixer_contract_membership :
    mixerContract.all (fun m => gluonTSMixerMethods.contains m) = true ∧
    mixerContract.all (fun m => nhitsMixerMethods.contains m) = true ∧
    mixerContract.all (fun m => transformerEncoderMethods.contains m) = false := by
  decide

/-! ### C8 : _make_initial_ds resampling and aggregation -/

/-- Folding the dict lookup over bindings none of which match `k`
leaves the accumulator unchanged. -/
theorem dg_no_match (k : String) :
    ∀ (l : List (String × GluonTSMixer.AggFn))
      (acc : Option GluonTSMixer.AggFn),
      (∀ p ∈ l, p.1 ≠ k) →
      l.foldl (fun acc p => if p.1 = k then some p.2 else acc) acc = acc := by
  intro l
  induction l with
  | nil => intro acc _; rfl
  | cons x xs ih =>
    intro acc h
    rw [List.foldl_cons, if_neg (h x (List.mem_cons_self ..))]
    exact ih acc (fun p hp => h p (List.mem_cons_of_mem _ hp))

/-- Folding the dict lookup over bindings where some binding matches `k`
and every matching binding carries `v` yields `some v`, whatever the
accumulator. -/
theorem dg_const (k : String) (v : GluonTSMixer.AggFn) :
    ∀ (l : List (String × GluonTSMixer.AggFn))
      (acc : Option GluonTSMixer.AggFn),
      (∀ p ∈ l, p.1 = k → p.2 = v) → (∃ p ∈ l, p.1 = k) →
      l.foldl (fun acc p => if p.1 = k then some p.2 else acc) acc = some v := by
  intro l
  induction l with
  | nil =>
    intro acc _ hex
    rcases hex with ⟨p, hp, _⟩
    exact absurd hp (List.not_mem_nil p)
  | cons x xs ih =>
    intro acc hall hex
    rw [List.foldl_cons]
    by_cases hx : x.1 = k
    · rw [if_pos hx]
      by_cases hex2 : ∃ p ∈ xs, p.1 = k
      · exact ih _ (fun p hp => hall p (List.mem_cons_of_mem _ hp)) hex2
      · have hno : ∀ p ∈ xs, p.1 ≠ k := fun p hp hpk => hex2 ⟨p, hp, hpk⟩
        rw [dg_no_match k xs _ hno, hall x (List.mem_cons_self ..) hx]
    · rw [if_neg hx]
      have hex2 : ∃ p ∈ xs, p.1 = k := by
        rcases hex with ⟨p, hp, hpk⟩
        rcases List.mem_cons.1 hp with rfl | hp2
        · exact absurd hpk hx
        · exact ⟨p, hp2, hpk⟩
      exact ih _ (fun p hp => hall p (List.mem_cons_of_mem _ hp)) hex2

/-- With the target column distinct from every static feature, the
`agg_map` entry for the target is `'sum'`. -/
theorem dictGet_target (cfg : GluonCfg) (d : GluonTSMixer.AggFn)
    (h1 : cfg.target ∉ cfg.static_features_cat)
    (h2 : cfg.target ∉ cfg.static_features_real) :
    GluonTSMixer.dictGet (GluonTSMixer.aggAssoc cfg) cfg.target d
      = GluonTSMixer.AggFn.sum := by
  unfold GluonTSMixer.dictGet GluonTSMixer.aggAssoc
  rw [List.foldl_cons, List.foldl_append]
  dsimp only
  rw [if_pos rfl]
  rw [dg_no_match cfg.target _ _ (by
    intro p hp
    obtain ⟨c, hc, rfl⟩ := List.mem_map.1 hp
    intro e
    exact h2 (e ▸ hc))]
  rw [dg_no_match cfg.target _ _ (by
    intro p hp
    obtain ⟨c, hc, rfl⟩ := List.mem_map.1 hp
    intro e
    exact h1 (e ▸ hc))]
  rfl

/-- A static categorical feature not shadowed by a static real feature
gets `agg_map` entry `'first'`. -/
theorem dictGet_cat (cfg : GluonCfg) (c : String) (d : GluonTSMixer.AggFn)
    (hc : c ∈ cfg.static_features_cat) (h2 : c ∉ cfg.static_features_real) :
    GluonTSMixer.dictGet (GluonTSMixer.aggAssoc cfg) c d
      = GluonTSMixer.AggFn.first := by
  unfold GluonTSMixer.dictGet GluonTSMixer.aggAssoc
  rw [List.foldl_cons, List.foldl_append]
  rw [dg_const c GluonTSMixer.AggFn.first
    (cfg.static_features_cat.map (fun c2 => (c2, GluonTSMixer.AggFn.first))) _
    (by
      intro p hp _
      obtain ⟨c2, _, rfl⟩ := List.mem_map.1 hp
      rfl)
    ⟨(c, GluonTSMixer.AggFn.first), List.mem_map.2 ⟨c, hc, rfl⟩, rfl⟩]
  rw [dg_no_match c _ _ (by
    intro p hp
    obtain ⟨c2, hc2, rfl⟩ := List.mem_map.1 hp
    intro e
    exact h2 (e ▸ hc2))]
  rfl

/-- A static real feature always gets `agg_map` entry `'mean'` (its
binding is inserted last). -/
theorem dictGet_real (cfg : GluonCfg) (c : String) (d : GluonTSMixer.AggFn)
    (hc : c ∈ cfg.static_features_real) :
    GluonTSMixer.dictGet (GluonTSMixer.aggAssoc cfg) c d
      = GluonTSMixer.AggFn.mean := by
  unfold GluonTSMixer.dictGet GluonTSMixer.aggAssoc
  rw [List.foldl_cons, List.foldl_append]
  rw [dg_const c GluonTSMixer.AggFn.mean
    (cfg.static_features_real.map (fun c2 => (c2, GluonTSMixer.AggFn.mean))) _
    (by
      intro p hp _
      obtain ⟨c2, _, rfl⟩ := List.mem_map.1 hp
      rfl)
    ⟨(c, GluonTSMixer.AggFn.mean), List.mem_map.2 ⟨c, hc, rfl⟩, rfl⟩]
  rfl

/-- Characterisation of one aggregated row under a well-formed (mutually
distinct) column configuration: the target is summed, each static
categorical feature takes its first value, each static real feature its
mean. -/
theorem aggRow_spec (cfg : GluonCfg) (b : Int) (g : String) (sub : List GRow)
    (h1 : cfg.target ∉ cfg.static_features_cat)
    (h2 : cfg.target ∉ cfg.static_features_real)
    (h3 : ∀ c ∈ cfg.static_features_cat, c ∉ cfg.static_features_real) :
    (GluonTSMixer.aggRow cfg b g sub).ts = b ∧
    (GluonTSMixer.aggRow cfg b g sub).group = g ∧
    (GluonTSMixer.aggRow cfg b g sub).target
      = (sub.map (fun r => r.target)).sum ∧
    (GluonTSMixer.aggRow cfg b g sub).statCat
      = (List.range cfg.static_features_cat.length).map (fun j =>
          (sub.map (fun r => r.statCat.getD j "")).headD "") ∧
    (GluonTSMixer.aggRow cfg b g sub).statReal
      = (List.range cfg.static_features_real.length).map (fun j =>
          (sub.map (fun r => r.statReal.getD j 0)).sum
            / ((sub.map (fun r => r.statReal.getD j 0)).length : ℚ)) := by
  refine ⟨rfl, rfl, ?_, ?_, ?_⟩
  · have hu : (GluonTSMixer.aggRow cfg b g sub).target
        = GluonTSMixer.applyAggQ
            (GluonTSMixer.dictGet (GluonTSMixer.aggAssoc cfg) cfg.target
              GluonTSMixer.AggFn.sum)
            (sub.map (fun r => r.target)) := rfl
    rw [hu, dictGet_target cfg _ h1 h2]
    rfl
  · have hu : (GluonTSMixer.aggRow cfg b g sub).statCat
        = (List.range cfg.static_features_cat.length).map (fun j =>
            GluonTSMixer.applyAggS
              (GluonTSMixer.dictGet (GluonTSMixer.aggAssoc cfg)
                (cfg.static_features_cat.getD j "") GluonTSMixer.AggFn.first)
              (sub.map (fun r => r.statCat.getD j ""))) := rfl
    rw [hu]
    apply List.map_congr_left
    intro j hj
    have hjlt : j < cfg.static_features_cat.length := List.mem_range.1 hj
    have hmem : cfg.static_features_cat.getD j "" ∈ cfg.static_features_cat := by
      rw [List.getD_eq_getElem _ _ hjlt]
      exact List.getElem_mem _
    rw [dictGet_cat cfg _ _ hmem (h3 _ hmem)]
    rfl
  · have hu : (GluonTSMixer.aggRow cfg b g sub).statReal
        = (List.range cfg.static_features_real.length).map (fun j =>
            GluonTSMixer.applyAggQ
              (GluonTSMixer.dictGet (GluonTSMixer.aggAssoc cfg)
                (cfg.static_features_real.getD j "") GluonTSMixer.AggFn.mean)
              (sub.map (fun r => r.statReal.getD j 0))) := rfl
    rw [hu]
    apply List.map_congr_left
    intro j hj
    have hjlt : j < cfg.static_features_real.length := List.mem_range.1 hj
    have hmem : cfg.static_features_real.getD j ""
        ∈ cfg.static_features_real := by
      rw [List.getD_eq_getElem _ _ hjlt]
      exact List.getElem_mem _
    rw [dictGet_real cfg _ _ hmem]
    rfl

/-- C8: for a non-empty deduplicated frame (with target and static
feature columns mutually distinct), the resample step of
`_make_initial_ds` aggregates the target by sum, each static categorical
feature by its first value and each static real feature by its mean;
with a group-by column configured each group is resampled separately,
and otherwise the whole frame is resampled with a constant
`'__default_group'` group column. -/
theorem resample_agg_spec (cfg : GluonCfg) (bucket : Int → Int)
    (df : List GRow) (hne : df ≠ [])
    (h1 : cfg.target ∉ cfg.static_features_cat)
    (h2 : cfg.target ∉ cfg.static_features_real)
    (h3 : ∀ c ∈ cfg.static_features_cat, c ∉ cfg.static_features_real) :
    (cfg.group_by ≠ [] →
      ∀ row ∈ GluonTSMixer.resampleAgg cfg bucket df,
        row.target = (((df.filter (fun r => r.group = row.group)).filter
            (fun r => bucket r.ts = row.ts)).map (fun r => r.target)).sum ∧
        row.statCat = (List.range cfg.static_features_cat.length).map (fun j =>
          (((df.filter (fun r => r.group = row.group)).filter
              (fun r => bucket r.ts = row.ts)).map
            (fun r => r.statCat.getD j "")).headD "") ∧
        row.statReal = (List.range cfg.static_features_real.length).map (fun j =>
          (((df.filter (fun r => r.group = row.group)).filter
              (fun r => bucket r.ts = row.ts)).map
            (fun r => r.statReal.getD j 0)).sum
            / ((((df.filter (fun r => r.group = row.group)).filter
              (fun r => bucket r.ts = row.ts)).map
            (fun r => r.statReal.getD j 0)).length : ℚ))) ∧
    (cfg.group_by = [] →
      ∀ row ∈ GluonTSMixer.resampleAgg cfg bucket df,
        row.group = "__default_group" ∧
        row.target = ((df.filter (fun r => bucket r.ts = row.ts)).map
          (fun r => r.target)).sum ∧
        row.statCat = (List.range cfg.static_features_cat.length).map (fun j =>
          ((df.filter (fun r => bucket r.ts = row.ts)).map
            (fun r => r.statCat.getD j "")).headD "") ∧
        row.statReal = (List.range cfg.static_features_real.length).map (fun j =>
          ((df.filter (fun r => bucket r.ts = row.ts)).map
            (fun r => r.statReal.getD j 0)).sum
            / (((df.filter (fun r => bucket r.ts = row.ts)).map
            (fun r => r.statReal.getD j 0)).length : ℚ))) := by
  constructor
  · intro hgb row hrow
    unfold GluonTSMixer.resampleAgg at hrow
    rw [if_neg hgb] at hrow
    obtain ⟨g, hg, hrow2⟩ := List.mem_flatMap.1 hrow
    dsimp only at hrow2
    obtain ⟨b, hb, rfl⟩ := List.mem_map.1 hrow2
    obtain ⟨hts, hgr, htar, hcat, hreal⟩ :=
      aggRow_spec cfg b g
        ((df.filter (fun r => r.group = g)).filter (fun r => bucket r.ts = b))
        h1 h2 h3
    rw [hts, hgr]
    exact ⟨htar, hcat, hreal⟩
  · intro hgb row hrow
    unfold GluonTSMixer.resampleAgg at hrow
    rw [if_pos hgb] at hrow
    obtain ⟨b, hb, rfl⟩ := List.mem_map.1 hrow
    obtain ⟨hts, hgr, htar, hcat, hreal⟩ :=
      aggRow_spec cfg b "__default_group"
        (df.filter (fun r => bucket r.ts = b)) h1 h2 h3
    rw [hts, hgr]
    exact ⟨rfl, htar, hcat, hreal⟩

/-- Concrete grouped configuration with one static categorical and one
static real feature, for the C8 witness. -/
def c8cfg : GluonCfg :=
  { target := "t", horizon := 1, tss_horizon := 1, window := 1,
    group_by := ["g"], static_features_cat := ["sc"],
    static_features_real := ["sr"] }

/-- Concrete deduplicated frame for the C8 witness. -/
def c8df : List GRow :=
  [{ ts := 0, origIdx := 0, target := 1, group := "a", statCat := ["x"],
     statReal := [2] },
   { ts := 1, origIdx := 1, target := 2, group := "a", statCat := ["x"],
     statReal := [4] },
   { ts := 4, origIdx := 2, target := 3, group := "b", statCat := ["y"],
     statReal := [6] }]

/-- Concrete period bucketing (a two-tick frequency) for the C8
witness. -/
def c8bucket : Int → Int :=
  fun t => t / 2

/-- Witness for C8 at concrete inputs. -/
theorem resample_agg_spec_witness :
    c8cfg.group_by ≠ [] ∧
    ∀ row ∈ GluonTSMixer.resampleAgg c8cfg c8bucket c8df,
      row.target = (((c8df.filter (fun r => r.group = row.group)).filter
          (fun r => c8bucket r.ts = row.ts)).map (fun r => r.target)).sum ∧
      row.statCat = (List.range c8cfg.static_features_cat.length).map (fun j =>
        (((c8df.filter (fun r => r.group = row.group)).filter
            (fun r => c8bucket r.ts = row.ts)).map
          (fun r => r.statCat.getD j "")).headD "") ∧
      row.statReal = (List.range c8cfg.static_features_real.length).map (fun j =>
        (((c8df.filter (fun r => r.group = row.group)).filter
            (fun r => c8bucket r.ts = row.ts)).map
          (fun r => r.statReal.getD j 0)).sum
          / ((((c8df.filter (fun r => r.group = row.group)).filter
            (fun r => c8bucket r.ts = row.ts)).map
          (fun r => r.statReal.getD j 0)).length : ℚ)) :=
  ⟨by decide,
   (resample_agg_spec c8cfg c8bucket c8df (by decide) (by decide) (by decide)
     (by decide)).1 (by decide)⟩
